import Mathlib

/-!
# Verification of the transformer training/decoding orchestration loop

Shallow embedding of `src/transformer/train.py`.  The numeric layers of the
model (`encode`, `decode`, `project`), the optimizer step and the gradient
computation are opaque external collaborators, so they appear here as
abstract function parameters; everything the orchestration code itself does
(the greedy decode loop, the validation loop, checkpoint preload and save,
the epoch/batch loop, the loss masking configuration) is translated
faithfully from the source.
-/

/-! ## Tokenizer (external collaborator, modelled as a word-level vocabulary)

The HuggingFace `Tokenizer` with a `WordLevel` model is, for the operations
`train.py` uses, a bidirectional token-to-id table: `token_to_id` yields the
index of the token in the vocabulary, `decode` maps ids back to tokens and
joins them, skipping special tokens. -/

structure TokenizerM where
  vocab : List String

/-- `tokenizer.token_to_id(s)`: the id of a token, `none` when absent. -/
def TokenizerM.token_to_id (t : TokenizerM) (s : String) : Option Nat :=
  t.vocab.indexOf? s

/-- `tokenizer.get_vocab_size()`. -/
def TokenizerM.get_vocab_size (t : TokenizerM) : Nat :=
  t.vocab.length

/-- The reserved tokens used by `get_or_build_tokenizer` (train.py line 29). -/
def specialTokens : List String :=
  ["[UNK]", "[SOS]", "[EOS]", "[PAD]"]

/-- `tokenizer.decode(ids)`: map ids back to tokens, skip special tokens
(the HuggingFace default), join with spaces. -/
def TokenizerM.decodeIds (t : TokenizerM) (ids : List Nat) : String :=
  String.intercalate " "
    ((ids.filterMap (fun i => t.vocab.get? i)).filter
      (fun s => ¬ specialTokens.contains s))

/-! ## The model (opaque numeric component)

`train.py` treats the transformer as three functions.  `ε` is the opaque type
of encoder outputs, `ρ` the opaque type of one decoder position's
representation.  `decode` returns one representation per target position;
`project` turns a position's representation into logits over the target
vocabulary. -/

structure Model (ε ρ : Type) where
  encode : List Nat → List Bool → ε
  decode : ε → List Bool → List Nat → List (List Bool) → List ρ
  project : ρ → List ℚ

/-- Modelled from the spec: `causal_mask` is defined in `dataset.py`, which is
not under src/.  Spec section 4.1 and the glossary: position `i` may attend to
position `j` iff `j ≤ i` (no look-ahead). -/
def causal_mask (size : Nat) : List (List Bool) :=
  (List.range size).map (fun i => (List.range size).map (fun j => decide (j ≤ i)))

/-! ## Arg-max over logits

`torch.max(prob, dim=1)` returns the index of the first maximal entry. -/

def argmaxIdx : List ℚ → Nat
  | [] => 0
  | [_] => 0
  | x :: y :: rest =>
    let j := argmaxIdx (y :: rest)
    if x < (y :: rest).getD j 0 then j + 1 else 0

theorem argmaxIdx_lt_length : ∀ (l : List ℚ), l ≠ [] → argmaxIdx l < l.length
  | [], h => absurd rfl h
  | [_], _ => by simp [argmaxIdx]
  | x :: y :: rest, _ => by
    have ih := argmaxIdx_lt_length (y :: rest) (by simp)
    simp only [argmaxIdx]
    split
    · simpa using Nat.succ_lt_succ ih
    · simp

theorem getD_le_getD_argmaxIdx : ∀ (l : List ℚ) (i : Nat), i < l.length →
    l.getD i 0 ≤ l.getD (argmaxIdx l) 0
  | [], i, h => by simp at h
  | [x], i, h => by
    match i, h with
    | 0, _ => simp [argmaxIdx]
  | x :: y :: rest, i, h => by
    have ih := fun j hj => getD_le_getD_argmaxIdx (y :: rest) j hj
    simp only [argmaxIdx]
    split
    · rename_i hlt
      match i, h with
      | 0, _ => simpa using le_of_lt hlt
      | j + 1, h =>
        have := ih j (by simpa using Nat.lt_of_succ_lt_succ h)
        simpa using this
    · rename_i hge
      push_neg at hge
      match i, h with
      | 0, _ => simp
      | j + 1, h =>
        have h1 := ih j (by simpa using Nat.lt_of_succ_lt_succ h)
        have h2 : (y :: rest).getD (argmaxIdx (y :: rest)) 0 ≤ x := hge
        simpa using le_trans h1 h2

/-! ## Greedy decoding (`greedy_decode`, train.py lines 74–101)

The Python loop is `while True` with two exits (length bound, EOS).  We embed
it as a fuel-indexed recursion: `none` models a run that has not exited after
`fuel` iterations.  `nextToken` is the loop body's token computation,
lines 88–97: build the causal mask for the current length, run the decoder,
take the last position, project to logits, take the arg-max. -/

def nextToken {ε ρ : Type} [Inhabited ρ] (model : Model ε ρ) (encoderOutput : ε)
    (sourceMask : List Bool) (decoderInput : List Nat) : Nat :=
  let decoderMask := causal_mask decoderInput.length
  let decoderOutput := model.decode encoderOutput sourceMask decoderInput decoderMask
  let prob := model.project (decoderOutput.getLastD default)
  argmaxIdx prob

/-- The decode loop, parameterized by the per-step token function.  One fuel
unit is consumed per iteration of the Python `while True`. -/
def greedyLoop (step : List Nat → Nat) (eosIdx maxLen : Nat) :
    Nat → List Nat → Option (List Nat)
  | 0, _ => none
  | fuel + 1, decoderInput =>
    if decoderInput.length = maxLen then some decoderInput
    else
      let nextWord := step decoderInput
      let decoderInput' := decoderInput ++ [nextWord]
      if nextWord = eosIdx then some decoderInput'
      else greedyLoop step eosIdx maxLen fuel decoderInput'

/-- `greedy_decode(model, source, source_mask, tokenizer_src, tokenizer_tgt,
max_len, device)`.  The unused `tokenizer_src` and `device` parameters are
dropped.  The encoder output is computed once, before the loop (line 79); the
decoder input starts as `[sos]` (line 82). -/
def greedy_decode {ε ρ : Type} [Inhabited ρ] (model : Model ε ρ)
    (source : List Nat) (sourceMask : List Bool) (tokTgt : TokenizerM)
    (maxLen fuel : Nat) : Option (List Nat) :=
  let sosIdx := (tokTgt.token_to_id "[SOS]").getD 0
  let eosIdx := (tokTgt.token_to_id "[EOS]").getD 0
  let encoderOutput := model.encode source sourceMask
  greedyLoop (nextToken model encoderOutput sourceMask) eosIdx maxLen fuel [sosIdx]

/-- A reference decoder that re-encodes the source at the start of every
iteration of the loop, used to state the claim that hoisting the encoder
call out of the loop does not change the result. -/
def greedyLoopReenc {ε ρ : Type} [Inhabited ρ] (model : Model ε ρ)
    (source : List Nat) (sourceMask : List Bool) (eosIdx maxLen : Nat) :
    Nat → List Nat → Option (List Nat)
  | 0, _ => none
  | fuel + 1, decoderInput =>
    if decoderInput.length = maxLen then some decoderInput
    else
      let encoderOutput := model.encode source sourceMask
      let nextWord := nextToken model encoderOutput sourceMask decoderInput
      let decoderInput' := decoderInput ++ [nextWord]
      if nextWord = eosIdx then some decoderInput'
      else greedyLoopReenc model source sourceMask eosIdx maxLen fuel decoderInput'

/-- The reference decoder: identical to `greedy_decode` except that the
encoder runs inside the loop, once per decode step. -/
def greedy_decode_reenc {ε ρ : Type} [Inhabited ρ] (model : Model ε ρ)
    (source : List Nat) (sourceMask : List Bool) (tokTgt : TokenizerM)
    (maxLen fuel : Nat) : Option (List Nat) :=
  let sosIdx := (tokTgt.token_to_id "[SOS]").getD 0
  let eosIdx := (tokTgt.token_to_id "[EOS]").getD 0
  greedyLoopReenc model source sourceMask eosIdx maxLen fuel [sosIdx]

/-! ## Properties of the decode loop -/

/-- The loop only ever appends: a successful run extends its start sequence. -/
theorem greedyLoop_extends (step : List Nat → Nat) (eos maxLen : Nat) :
    ∀ (fuel : Nat) (s out : List Nat), greedyLoop step eos maxLen fuel s = some out →
      ∃ t, out = s ++ t
  | 0, s, out, h => by simp [greedyLoop] at h
  | fuel + 1, s, out, h => by
    simp only [greedyLoop] at h
    split at h
    · exact ⟨[], by simpa using (Option.some.inj h).symm⟩
    · split at h
      · exact ⟨[step s], (Option.some.inj h).symm⟩
      · obtain ⟨t, ht⟩ := greedyLoop_extends step eos maxLen fuel _ out h
        exact ⟨step s :: t, by simpa using ht⟩

/-- Started at or below the length bound, the loop never crosses it. -/
theorem greedyLoop_length_le (step : List Nat → Nat) (eos maxLen : Nat) :
    ∀ (fuel : Nat) (s out : List Nat), s.length ≤ maxLen →
      greedyLoop step eos maxLen fuel s = some out → out.length ≤ maxLen
  | 0, s, out, _, h => by simp [greedyLoop] at h
  | fuel + 1, s, out, hs, h => by
    simp only [greedyLoop] at h
    split at h
    · obtain rfl := Option.some.inj h; exact hs
    · rename_i hne
      have hlt : s.length < maxLen := lt_of_le_of_ne hs hne
      split at h
      · obtain rfl := Option.some.inj h; simpa using hlt
      · exact greedyLoop_length_le step eos maxLen fuel _ out (by simpa using hlt) h

/-- Every successful run ends with EOS or at exactly the length bound. -/
theorem greedyLoop_last (step : List Nat → Nat) (eos maxLen : Nat) :
    ∀ (fuel : Nat) (s out : List Nat), greedyLoop step eos maxLen fuel s = some out →
      out.getLast? = some eos ∨ out.length = maxLen
  | 0, s, out, h => by simp [greedyLoop] at h
  | fuel + 1, s, out, h => by
    simp only [greedyLoop] at h
    split at h
    · obtain rfl := Option.some.inj h; right; assumption
    · split at h
      · obtain rfl := Option.some.inj h
        left; rename_i heos; rw [heos]; exact List.getLast?_concat _
      · exact greedyLoop_last step eos maxLen fuel _ out h

/-- Fuel `maxLen + 1 - s.length` suffices: starting at or below the bound, the
loop exits. -/
theorem greedyLoop_total (step : List Nat → Nat) (eos maxLen : Nat) :
    ∀ (fuel : Nat) (s : List Nat), s.length ≤ maxLen → maxLen + 1 ≤ fuel + s.length →
      ∃ out, greedyLoop step eos maxLen fuel s = some out
  | 0, s, hs, hf => by omega
  | fuel + 1, s, hs, hf => by
    simp only [greedyLoop]
    split
    · exact ⟨s, rfl⟩
    · rename_i hne
      have hlt : s.length < maxLen := lt_of_le_of_ne hs hne
      split
      · exact ⟨_, rfl⟩
      · exact greedyLoop_total step eos maxLen fuel _ (by simpa using hlt)
          (by simp; omega)

/-- The result does not depend on the fuel: any two successful runs from the
same start agree. -/
theorem greedyLoop_agree (step : List Nat → Nat) (eos maxLen : Nat) :
    ∀ (fuel₁ fuel₂ : Nat) (s out₁ out₂ : List Nat),
      greedyLoop step eos maxLen fuel₁ s = some out₁ →
      greedyLoop step eos maxLen fuel₂ s = some out₂ → out₁ = out₂
  | 0, _, s, out₁, out₂, h₁, _ => by simp [greedyLoop] at h₁
  | _ + 1, 0, s, out₁, out₂, _, h₂ => by simp [greedyLoop] at h₂
  | fuel₁ + 1, fuel₂ + 1, s, out₁, out₂, h₁, h₂ => by
    simp only [greedyLoop] at h₁ h₂
    by_cases hb : s.length = maxLen
    · rw [if_pos hb] at h₁ h₂
      exact (Option.some.inj h₁).symm.trans (Option.some.inj h₂)
    · rw [if_neg hb] at h₁ h₂
      by_cases heos : step s = eos
      · rw [if_pos heos] at h₁ h₂
        exact (Option.some.inj h₁).symm.trans (Option.some.inj h₂)
      · rw [if_neg heos] at h₁ h₂
        exact greedyLoop_agree step eos maxLen fuel₁ fuel₂ _ out₁ out₂ h₁ h₂

/-- Every position of the output at or past the start sequence holds the step
function of the preceding prefix, and, unless it is the final position, that
token is not EOS. -/
theorem greedyLoop_tokens (step : List Nat → Nat) (eos maxLen : Nat) :
    ∀ (fuel : Nat) (s out : List Nat), greedyLoop step eos maxLen fuel s = some out →
      ∀ i, s.length ≤ i → i < out.length →
        out[i]? = some (step (out.take i)) ∧
        (i + 1 < out.length → step (out.take i) ≠ eos)
  | 0, s, out, h => by simp [greedyLoop] at h
  | fuel + 1, s, out, h => by
    simp only [greedyLoop] at h
    split at h
    · obtain rfl := Option.some.inj h
      intro i hsi hi; omega
    · split at h
      · obtain rfl := Option.some.inj h
        intro i hsi hi
        have hi' : i = s.length := by
          simp only [List.length_append, List.length_cons, List.length_nil] at hi; omega
        subst hi'
        have htake : (s ++ [step s]).take s.length = s := List.take_left' rfl
        refine ⟨?_, ?_⟩
        · rw [htake]; exact List.getElem?_concat_length s _
        · intro hlen
          simp only [List.length_append, List.length_cons, List.length_nil] at hlen
          omega
      · rename_i heos
        intro i hsi hi
        have ih := greedyLoop_tokens step eos maxLen fuel _ out h
        rcases Nat.lt_or_ge i (s.length + 1) with hc | hc
        · have hi' : i = s.length := by omega
          subst hi'
          obtain ⟨t, ht⟩ := greedyLoop_extends step eos maxLen fuel _ out h
          have htake : out.take s.length = s := by
            rw [ht, List.append_assoc, List.take_append_of_le_length le_rfl,
              List.take_length]
          refine ⟨?_, fun _ => by rw [htake]; exact heos⟩
          rw [htake, ht, List.getElem?_append_left (by simp),
            List.getElem?_concat_length]
        · exact ih i (by simpa using hc) hi

/-- Hoisting the encoder call out of the loop changes nothing: the two loops
agree step for step. -/
theorem greedyLoopReenc_eq {ε ρ : Type} [Inhabited ρ] (model : Model ε ρ)
    (source : List Nat) (sourceMask : List Bool) (eos maxLen : Nat) :
    ∀ (fuel : Nat) (s : List Nat),
      greedyLoopReenc model source sourceMask eos maxLen fuel s =
      greedyLoop (nextToken model (model.encode source sourceMask) sourceMask)
        eos maxLen fuel s
  | 0, s => rfl
  | fuel + 1, s => by
    simp only [greedyLoopReenc, greedyLoop]
    split
    · rfl
    · split
      · rfl
      · exact greedyLoopReenc_eq model source sourceMask eos maxLen fuel _

/-! ## Validation (`run_validation`, train.py lines 103–137)

The function records each (source text, expected text, predicted text) triple
both in its local lists and through the caller-supplied `print_msg` sink; the
ordered list of triples returned below is that recorded sequence.  The
`device`, `global_state` and `writer` parameters, `model.eval()` and
`torch.no_grad()` have no observable effect here and are dropped. -/

/-- One element of the validation `DataLoader`: a batch of encoder inputs
(the leading dimension is the batch dimension, asserted to be 1), its mask,
and the raw text pair. -/
structure ValBatch where
  encoder_input : List (List Nat)
  encoder_mask : List Bool
  src_text : String
  tgt_text : String

inductive ValError where
  | UnsupportedBatchSizeError
  | DecodeFuelExhausted
deriving DecidableEq

/-- The loop over `validation_ds`, carrying `count`.  Per iteration:
increment `count`, assert batch size 1 (a failed assert is
`UnsupportedBatchSizeError`, the spec's name for this contract violation),
greedy-decode the single example, convert ids to text, record the triple,
and stop once `count == num_examples`.  `greedy_decode` runs with fuel
`maxLen`, which suffices whenever `1 ≤ maxLen` (`greedyLoop_total`); the
`DecodeFuelExhausted` result models the loop not exiting. -/
def runValidationLoop {ε ρ : Type} [Inhabited ρ] (model : Model ε ρ)
    (tokTgt : TokenizerM) (maxLen numExamples : Nat) :
    Nat → List ValBatch → Except ValError (List (String × String × String))
  | _, [] => .ok []
  | count, b :: rest =>
    let count' := count + 1
    if b.encoder_input.length ≠ 1 then .error .UnsupportedBatchSizeError
    else
      match greedy_decode model (b.encoder_input.headD []) b.encoder_mask tokTgt
          maxLen maxLen with
      | none => .error .DecodeFuelExhausted
      | some modelOut =>
        let triple := (b.src_text, b.tgt_text, tokTgt.decodeIds modelOut)
        if count' = numExamples then .ok [triple]
        else
          match runValidationLoop model tokTgt maxLen numExamples count' rest with
          | .error e => .error e
          | .ok triples => .ok (triple :: triples)

/-- `run_validation(model, validation_ds, ..., num_examples=2)`; the cap
defaults to 2 in the source and is passed explicitly here. -/
def run_validation {ε ρ : Type} [Inhabited ρ] (model : Model ε ρ)
    (validation_ds : List ValBatch) (tokTgt : TokenizerM)
    (maxLen : Nat) (numExamples : Nat) :
    Except ValError (List (String × String × String)) :=
  runValidationLoop model tokTgt maxLen numExamples 0 validation_ds

/-- The triple recorded for one validation batch. -/
def valTriple {ε ρ : Type} [Inhabited ρ] (model : Model ε ρ) (tokTgt : TokenizerM)
    (maxLen : Nat) (b : ValBatch) : String × String × String :=
  (b.src_text, b.tgt_text,
    tokTgt.decodeIds ((greedy_decode model (b.encoder_input.headD [])
      b.encoder_mask tokTgt maxLen maxLen).getD []))

/-! ## Checkpointing and the training loop (`train_model`, train.py 142–207) -/

/-- The dictionary `torch.save` writes (train.py lines 202–207) and
`torch.load` reads back: epoch, model parameters, optimizer state, step
counter.  `P` and `O` are the opaque parameter and optimizer-state blobs. -/
structure Checkpoint (P O : Type) where
  epoch : Nat
  model_state_dict : P
  optimizer_state_dict : O
  global_step : Nat

/-- The configuration options `train_model` reads. -/
structure Config where
  seq_len : Nat
  num_epochs : Nat
  lr : ℚ
  preload : Option String
  model_folder : String
  experiment_name : String

/-- Modelled from the spec: `get_weights_file_path` lives in `config.py`,
which is not under src/.  Spec section 4.5: the checkpoint location is
derived deterministically from the label. -/
def get_weights_file_path (cfg : Config) (label : String) : String :=
  cfg.model_folder ++ "/tmodel_" ++ label ++ ".pt"

inductive TrainError where
  | CheckpointNotFoundError
  | UndefinedNameError
deriving DecidableEq

/-- Python `f-string` formatting `{epoch:02d}`. -/
def epochLabel (e : Nat) : String :=
  if e < 10 then "0" ++ toString e else toString e

/-- train.py lines 155–163: start at epoch 0, step 0; with a preload label,
load the checkpoint (a missing file is `CheckpointNotFoundError`, the spec's
name for the `FileNotFoundError` that `torch.load` raises and `train_model`
does not catch), set the starting epoch to the stored epoch plus one, restore
the optimizer state and the global step.  The model parameters component of
the result stays `freshP`: the source never loads
`state[model_state_dict]` into the model.  Result:
(initial_epoch, global_step, model parameters, optimizer state). -/
def initTraining {P O : Type} (store : String → Option (Checkpoint P O))
    (cfg : Config) (freshP : P) (freshO : O) :
    Except TrainError (Nat × Nat × P × O) :=
  match cfg.preload with
  | none => .ok (0, 0, freshP, freshO)
  | some label =>
    match store (get_weights_file_path cfg label) with
    | none => .error .CheckpointNotFoundError
    | some state => .ok (state.epoch + 1, state.global_step, freshP,
        state.optimizer_state_dict)

/-- The per-batch work of train.py lines 170–198, with the numeric forward
pass, loss, backward pass and Adam update abstracted as `gradStep`; the step
counter advances by one per batch. -/
def runBatches {P O B : Type} (gradStep : P → O → B → P × O) :
    P × O × Nat → List B → P × O × Nat
  | st, [] => st
  | (p, o, gs), b :: rest =>
    runBatches gradStep ((gradStep p o b).1, (gradStep p o b).2, gs + 1) rest

/-- `for epoch in range(e, e + k)`, running the batches of each epoch. -/
def runEpochs {P O B : Type} (gradStep : P → O → B → P × O)
    (epochBatches : Nat → List B) : Nat → Nat → P × O × Nat → P × O × Nat
  | _, 0, st => st
  | e, k + 1, st => runEpochs gradStep epochBatches (e + 1) k
      (runBatches gradStep st (epochBatches e))

/-- The observable actions after the epoch loop. -/
inductive TrainEvent (P O : Type) where
  | validationRun (result : Except ValError (List (String × String × String)))
  | checkpointSaved (path : String) (cp : Checkpoint P O)

/-- `train_model(config)`, train.py lines 142–207, from the optimizer
construction onward.  Dataset assembly and model construction are external;
the model is a function `modelOf` of the current parameters.  After the epoch
loop the source calls `run_validation` once and then `torch.save` once, with
the loop variable `epoch` holding its final value `num_epochs - 1`; when the
loop body never ran (initial epoch at or past `num_epochs`), both that call
and the save refer to the undefined names `batch_iterator` and `epoch`, a
Python `NameError`, modelled as `UndefinedNameError`. -/
def train_model {ε ρ P O B : Type} [Inhabited ρ] (cfg : Config)
    (store : String → Option (Checkpoint P O)) (modelOf : P → Model ε ρ)
    (tokTgt : TokenizerM) (epochBatches : Nat → List B) (valDs : List ValBatch)
    (gradStep : P → O → B → P × O) (freshP : P) (freshO : O) :
    Except TrainError (List (TrainEvent P O)) :=
  match initTraining store cfg freshP freshO with
  | .error e => .error e
  | .ok (initialEpoch, globalStep, p, o) =>
    if initialEpoch < cfg.num_epochs then
      let final := runEpochs gradStep epochBatches initialEpoch
        (cfg.num_epochs - initialEpoch) (p, o, globalStep)
      let valRes := run_validation (modelOf final.1) valDs tokTgt cfg.seq_len 2
      .ok [.validationRun valRes,
        .checkpointSaved (get_weights_file_path cfg (epochLabel (cfg.num_epochs - 1)))
          ⟨cfg.num_epochs - 1, final.1, final.2.1, final.2.2⟩]
    else .error .UndefinedNameError

/-! ## The loss (`loss_fn`, train.py line 165 and 185)

`nn.CrossEntropyLoss(ignore_index=tokenizer_src.token_to_id([PAD]),
label_smoothing=0.1)` applied to the flattened projection and labels.  The
log-softmax itself is opaque numerics, so the loss is modelled over an
abstract per-position log-probability table `logp`; what is translated from
the source is PyTorch's documented reduction: with smoothing `eps` over `K`
classes the per-position loss is
`-((1 - eps) * logp[label] + (eps / K) * sum of logp over classes)`, positions
whose label equals `ignore_index` contribute nothing, and the result is the
mean over the remaining positions. -/

def ceLossTermLS (logp : Nat → ℚ) (numClasses target : Nat) (eps : ℚ) : ℚ :=
  -((1 - eps) * logp target +
    (eps / numClasses) * ((List.range numClasses).map logp).sum)

def crossEntropyLossLS (logp : Nat → Nat → ℚ) (labels : List Nat)
    (numClasses ignoreIdx : Nat) (eps : ℚ) : ℚ :=
  let kept := (List.range labels.length).filter (fun i => labels.getD i 0 ≠ ignoreIdx)
  if kept.length = 0 then 0
  else (kept.map (fun i => ceLossTermLS (logp i) numClasses (labels.getD i 0) eps)).sum
    / kept.length

/-- The loss `train_model` computes for one flattened batch: ignore index is
the SOURCE tokenizer's PAD id (train.py line 165), the class count is the
target vocabulary size (line 185), the smoothing factor is 0.1. -/
def trainBatchLoss (tokSrc tokTgt : TokenizerM) (logp : Nat → Nat → ℚ)
    (labels : List Nat) : ℚ :=
  crossEntropyLossLS logp labels tokTgt.get_vocab_size
    ((tokSrc.token_to_id "[PAD]").getD 0) (1 / 10)

/-- Formalization of the claim's wording: the same smoothed token-level
cross-entropy, but ignoring the positions whose label equals the TARGET
vocabulary's PAD id. -/
def claimBatchLossTgtPad (tokTgt : TokenizerM) (logp : Nat → Nat → ℚ)
    (labels : List Nat) : ℚ :=
  crossEntropyLossLS logp labels tokTgt.get_vocab_size
    ((tokTgt.token_to_id "[PAD]").getD 0) (1 / 10)

/-! ## Helper lemmas for the claims -/

/-- The logits the loop sees for a given decoder prefix: encode once, decode,
take the last position, project.  `nextToken` is the arg-max of this list. -/
def stepProb {ε ρ : Type} [Inhabited ρ] (model : Model ε ρ) (source : List Nat)
    (sourceMask : List Bool) (decoderInput : List Nat) : List ℚ :=
  model.project ((model.decode (model.encode source sourceMask) sourceMask
    decoderInput (causal_mask decoderInput.length)).getLastD default)

theorem nextToken_eq_argmax_stepProb {ε ρ : Type} [Inhabited ρ] (model : Model ε ρ)
    (source : List Nat) (sourceMask : List Bool) (decoderInput : List Nat) :
    nextToken model (model.encode source sourceMask) sourceMask decoderInput =
      argmaxIdx (stepProb model source sourceMask decoderInput) := rfl

/-- Total number of batches over `k` epochs starting at epoch `e`. -/
def totalBatches {B : Type} (epochBatches : Nat → List B) : Nat → Nat → Nat
  | _, 0 => 0
  | e, k + 1 => (epochBatches e).length + totalBatches epochBatches (e + 1) k

theorem runBatches_global_step {P O B : Type} (gradStep : P → O → B → P × O) :
    ∀ (l : List B) (p : P) (o : O) (gs : Nat),
      (runBatches gradStep (p, o, gs) l).2.2 = gs + l.length
  | [], p, o, gs => rfl
  | b :: rest, p, o, gs => by
    simp only [runBatches]
    rw [runBatches_global_step gradStep rest _ _ (gs + 1)]
    simp [Nat.add_comm, Nat.add_assoc, Nat.add_left_comm]

theorem runEpochs_global_step {P O B : Type} (gradStep : P → O → B → P × O)
    (epochBatches : Nat → List B) :
    ∀ (k e : Nat) (st : P × O × Nat),
      (runEpochs gradStep epochBatches e k st).2.2 =
        st.2.2 + totalBatches epochBatches e k
  | 0, e, st => rfl
  | k + 1, e, st => by
    have hb : (runBatches gradStep st (epochBatches e)).2.2 =
        st.2.2 + (epochBatches e).length := by
      rcases st with ⟨p, o, gs⟩
      exact runBatches_global_step gradStep (epochBatches e) p o gs
    have ih := runEpochs_global_step gradStep epochBatches k (e + 1)
      (runBatches gradStep st (epochBatches e))
    simp only [runEpochs, totalBatches]
    omega

/-- With a positive cap and all batches of size 1, the validation loop
records the triple of each of the first `numExamples - count` batches. -/
theorem runValidationLoop_ok {ε ρ : Type} [Inhabited ρ] (model : Model ε ρ)
    (tokTgt : TokenizerM) (maxLen numExamples : Nat) (hmax : 1 ≤ maxLen) :
    ∀ (valDs : List ValBatch) (count : Nat), count < numExamples →
      (∀ b ∈ valDs, b.encoder_input.length = 1) →
      runValidationLoop model tokTgt maxLen numExamples count valDs =
        .ok ((valDs.take (numExamples - count)).map (valTriple model tokTgt maxLen))
  | [], count, _, _ => by simp [runValidationLoop]
  | b :: rest, count, hcount, hsizes => by
    have hb : b.encoder_input.length = 1 := hsizes b (by simp)
    obtain ⟨out, hout⟩ : ∃ out,
        greedy_decode model (b.encoder_input.headD []) b.encoder_mask tokTgt
          maxLen maxLen = some out := by
      simp only [greedy_decode]
      exact greedyLoop_total _ _ _ maxLen [_] (by simpa using hmax) (by simp)
    have htr : valTriple model tokTgt maxLen b =
        (b.src_text, b.tgt_text, tokTgt.decodeIds out) := by
      simp only [valTriple, hout, Option.getD_some]
    simp only [runValidationLoop, hb]
    rw [if_neg (by simp), hout]
    dsimp only
    by_cases hc : count + 1 = numExamples
    · rw [if_pos hc]
      have h1 : numExamples - count = 1 := by omega
      rw [h1]
      simp [htr]
    · rw [if_neg hc]
      rw [runValidationLoop_ok model tokTgt maxLen numExamples hmax rest (count + 1)
        (by omega) (fun x hx => hsizes x (by simp [hx]))]
      dsimp only
      have h1 : numExamples - count = (numExamples - (count + 1)) + 1 := by omega
      rw [h1]
      simp [htr]

/-! ## Concrete instances used by witnesses and counterexamples -/

/-- A vocabulary holding only the reserved tokens, in the order
`get_or_build_tokenizer` installs them: SOS is id 1, EOS id 2, PAD id 3. -/
def cTok : TokenizerM := ⟨["[UNK]", "[SOS]", "[EOS]", "[PAD]"]⟩

/-- A target vocabulary whose PAD id (5) differs from the PAD id (3) of
`cTok`, as can happen when the tokenizers are loaded from files rather than
built by this pipeline. -/
def cTokB : TokenizerM := ⟨["[UNK]", "[SOS]", "[EOS]", "aa", "bb", "[PAD]"]⟩

/-- A model whose logits always select id 2, the EOS id of `cTok`. -/
def cModelEos : Model Unit Unit :=
  ⟨fun _ _ => (), fun _ _ _ _ => [()], fun _ => [0, 0, 1, 0]⟩

/-- A model whose logits always select id 3, never the EOS id of `cTok`. -/
def cModelPad : Model Unit Unit :=
  ⟨fun _ _ => (), fun _ _ _ _ => [()], fun _ => [0, 0, 0, 1]⟩

/-- A validation batch of size 1. -/
def cBatch1 : ValBatch := ⟨[[1, 0, 2]], [true, true, true], "src", "tgt"⟩

/-- A validation batch of size 2. -/
def cBatch2 : ValBatch :=
  ⟨[[1, 0, 2], [1, 0, 2]], [true, true, true], "src2", "tgt2"⟩

/-- A constant log-probability table. -/
def cLogp : Nat → Nat → ℚ := fun _ _ => -1

/-- A configuration requesting preload from label "05". -/
def cCfgPre : Config := ⟨8, 10, 1 / 1000, some "05", "weights", "runs"⟩

/-- A store holding, at the path for label "05", a checkpoint with epoch 5,
model parameters 7, optimizer state 9, global step 42. -/
def cStorePre : String → Option (Checkpoint Nat Nat) := fun path =>
  if path = get_weights_file_path cCfgPre "05" then some ⟨5, 7, 9, 42⟩ else none

/-- A configuration with one epoch and no preload. -/
def cCfg1 : Config := ⟨4, 1, 1 / 1000, none, "weights", "runs"⟩

/-- A configuration with zero epochs and no preload. -/
def cCfg0 : Config := ⟨4, 0, 1 / 1000, none, "weights", "runs"⟩

/-- An empty checkpoint store. -/
def cStoreEmpty : String → Option (Checkpoint Nat Nat) := fun _ => none

/-- A gradient step that leaves parameters and optimizer state unchanged. -/
def cGradStep : Nat → Nat → Unit → Nat × Nat := fun p o _ => (p, o)

/-- No batches in any epoch. -/
def cEpochBatches : Nat → List Unit := fun _ => []

/-! ## The claims -/

/-- C1: the claim says `train_model` with a preload label restores the full
Training State, model parameters included.  The source (train.py 157–163)
restores the starting epoch (stored epoch plus one), the optimizer state and
the global step, but never loads `state[model_state_dict]` into the model, so
training resumes with the freshly initialized parameters.  Evaluated at a
store whose checkpoint holds parameters 7 and fresh parameters 0: the
restored state keeps parameters 0, not 7, while epoch, optimizer state and
global step are restored. -/
theorem C1_preload_keeps_fresh_params :
    initTraining cStorePre cCfgPre 0 0 = .ok (6, 42, 0, 9) ∧
    cStorePre (get_weights_file_path cCfgPre "05") = some ⟨5, 7, 9, 42⟩ ∧
    (0 : Nat) ≠ 7 := by
  refine ⟨rfl, rfl, by decide⟩

/-- C2 counterexample: the claim quantifies over every `max_len`, but at
`max_len = 0` the length check `decoder_input.size(1) == max_len` never
fires (the sequence starts at length 1), so a model that immediately emits
EOS returns a sequence of length 2, exceeding the bound. -/
theorem C2_counterexample :
    greedy_decode cModelEos [0] [true] cTok 0 5 = some [1, 2] ∧
    ¬ (([1, 2] : List Nat).length ≤ 0) := by
  refine ⟨by decide, by decide⟩

/-- C2 (amended): for `max_len ≥ 1`, `greedy_decode` terminates (fuel
`max_len` suffices for the while loop) with output length at most `max_len`,
and every run ends either with EOS as the last token (natural termination) or
at length exactly `max_len` (length-bound termination, which appends
nothing, in particular no EOS). -/
theorem C2_greedy_decode_terminates {ε ρ : Type} [Inhabited ρ] (model : Model ε ρ)
    (source : List Nat) (sourceMask : List Bool) (tokTgt : TokenizerM)
    (maxLen : Nat) (hmax : 1 ≤ maxLen) :
    ∃ out, greedy_decode model source sourceMask tokTgt maxLen maxLen = some out ∧
      out.length ≤ maxLen ∧
      (out.getLast? = some ((tokTgt.token_to_id "[EOS]").getD 0) ∨
        out.length = maxLen) := by
  obtain ⟨out, hout⟩ := greedyLoop_total
    (nextToken model (model.encode source sourceMask) sourceMask)
    ((tokTgt.token_to_id "[EOS]").getD 0) maxLen maxLen
    [(tokTgt.token_to_id "[SOS]").getD 0] (by simpa using hmax) (by simp)
  refine ⟨out, by simpa [greedy_decode] using hout, ?_, ?_⟩
  · exact greedyLoop_length_le _ _ _ _ _ _ (by simpa using hmax) hout
  · exact greedyLoop_last _ _ _ _ _ _ hout

/-- C2 witness: the amended claim at `max_len = 3` with a model that never
emits EOS. -/
theorem C2_witness :
    ∃ out, greedy_decode cModelPad [0] [true] cTok 3 3 = some out ∧
      out.length ≤ 3 ∧
      (out.getLast? = some ((cTok.token_to_id "[EOS]").getD 0) ∨
        out.length = 3) :=
  C2_greedy_decode_terminates cModelPad [0] [true] cTok 3 (by decide)

/-- C3: the validation loop checks the batch size before decoding: a batch
whose leading dimension is not 1 makes `run_validation` fail with
`UnsupportedBatchSizeError` (the spec's name for the failed
`assert encoder_input.size(0)==1`, train.py line 119), before any decode
output or triple is produced for that batch. -/
theorem C3_batch_size_guard {ε ρ : Type} [Inhabited ρ] (model : Model ε ρ)
    (b : ValBatch) (rest : List ValBatch) (tokTgt : TokenizerM)
    (maxLen numExamples : Nat) (h : b.encoder_input.length ≠ 1) :
    run_validation model (b :: rest) tokTgt maxLen numExamples =
      .error .UnsupportedBatchSizeError := by
  simp [run_validation, runValidationLoop, h]

/-- C3 witness: a batch of 2 makes validation fail. -/
theorem C3_witness :
    run_validation cModelEos [cBatch2] cTok 4 2 =
      .error .UnsupportedBatchSizeError :=
  C3_batch_size_guard cModelEos cBatch2 [] cTok 4 2 (by decide)

/-- C4 counterexample: the source builds the loss with
`ignore_index = tokenizer_src.token_to_id([PAD])` (train.py line 165), the
SOURCE vocabulary's PAD id, while the claim says the TARGET vocabulary's PAD
id is ignored.  With a source PAD id of 3 and a target PAD id of 5, a
position labeled 5 contributes to the code's loss, so the two disagree. -/
theorem C4_counterexample :
    trainBatchLoss cTok cTokB cLogp [5] ≠ claimBatchLossTgtPad cTokB cLogp [5] := by
  have hs : (cTok.token_to_id "[PAD]").getD 0 = 3 := by decide
  have ht : (cTokB.token_to_id "[PAD]").getD 0 = 5 := by decide
  have hK : cTokB.get_vocab_size = 6 := by decide
  simp only [trainBatchLoss, claimBatchLossTgtPad, hs, ht, hK]
  norm_num [crossEntropyLossLS, ceLossTermLS, cLogp, List.range_succ]

/-- C4 (amended): the loss ignores the positions whose label equals the
SOURCE vocabulary's PAD id; whenever the two tokenizers assign `[PAD]` the
same id (as the built pipeline's tokenizers do, both placing the reserved
tokens first), this coincides with the claim's target-PAD masking, with
smoothing factor 0.1. -/
theorem C4_loss_eq_of_same_pad (tokSrc tokTgt : TokenizerM)
    (logp : Nat → Nat → ℚ) (labels : List Nat)
    (hp : tokSrc.token_to_id "[PAD]" = tokTgt.token_to_id "[PAD]") :
    trainBatchLoss tokSrc tokTgt logp labels =
      claimBatchLossTgtPad tokTgt logp labels := by
  simp [trainBatchLoss, claimBatchLossTgtPad, hp]

/-- C4 witness: with equal PAD ids the code loss and the claim loss agree. -/
theorem C4_witness :
    cTok.token_to_id "[PAD]" = cTok.token_to_id "[PAD]" ∧
    trainBatchLoss cTok cTok cLogp [3, 0] =
      claimBatchLossTgtPad cTok cLogp [3, 0] :=
  ⟨rfl, C4_loss_eq_of_same_pad cTok cTok cLogp [3, 0] rfl⟩

/-- C5 (amended): provided at least one epoch executes (initial epoch below
`num_epochs`), `train_model` runs validation exactly once and then persists
exactly one checkpoint — the trace is exactly one validation event followed
by one save event — labeled with the last completed epoch `num_epochs - 1`,
whose record carries the four fields, with `global_step` equal to the initial
step plus one increment per processed batch. -/
theorem C5_final_validation_and_checkpoint {ε ρ P O B : Type} [Inhabited ρ]
    (cfg : Config) (store : String → Option (Checkpoint P O))
    (modelOf : P → Model ε ρ) (tokTgt : TokenizerM)
    (epochBatches : Nat → List B) (valDs : List ValBatch)
    (gradStep : P → O → B → P × O) (freshP : P) (freshO : O)
    (ie gs : Nat) (p : P) (o : O)
    (hinit : initTraining store cfg freshP freshO = .ok (ie, gs, p, o))
    (hlt : ie < cfg.num_epochs) :
    ∃ r cp,
      train_model cfg store modelOf tokTgt epochBatches valDs gradStep
          freshP freshO =
        .ok [.validationRun r,
          .checkpointSaved
            (get_weights_file_path cfg (epochLabel (cfg.num_epochs - 1))) cp] ∧
      cp.epoch = cfg.num_epochs - 1 ∧
      cp.global_step = gs + totalBatches epochBatches ie (cfg.num_epochs - ie) := by
  refine ⟨run_validation
      (modelOf (runEpochs gradStep epochBatches ie (cfg.num_epochs - ie)
        (p, o, gs)).1) valDs tokTgt cfg.seq_len 2,
    ⟨cfg.num_epochs - 1,
      (runEpochs gradStep epochBatches ie (cfg.num_epochs - ie) (p, o, gs)).1,
      (runEpochs gradStep epochBatches ie (cfg.num_epochs - ie) (p, o, gs)).2.1,
      (runEpochs gradStep epochBatches ie (cfg.num_epochs - ie) (p, o, gs)).2.2⟩,
    ?_, rfl, ?_⟩
  · simp [train_model, hinit, hlt]
  · simpa using
      runEpochs_global_step gradStep epochBatches (cfg.num_epochs - ie) ie (p, o, gs)

/-- C5 witness: one epoch, no preload. -/
theorem C5_witness :
    ∃ r cp,
      train_model cCfg1 cStoreEmpty (fun _ => cModelEos) cTok cEpochBatches []
          cGradStep 0 0 =
        .ok [.validationRun r,
          .checkpointSaved
            (get_weights_file_path cCfg1 (epochLabel (cCfg1.num_epochs - 1))) cp] ∧
      cp.epoch = cCfg1.num_epochs - 1 ∧
      cp.global_step = 0 + totalBatches cEpochBatches 0 (cCfg1.num_epochs - 0) :=
  C5_final_validation_and_checkpoint cCfg1 cStoreEmpty (fun _ => cModelEos) cTok
    cEpochBatches [] cGradStep 0 0 0 0 0 0 rfl (by decide)

/-- C5 counterexample: with `num_epochs = 0` the configured number of epochs
completes vacuously, yet `train_model` persists nothing: the epoch loop body
never ran, so the references to `epoch` and `batch_iterator` after the loop
are undefined names and the run fails instead of saving a checkpoint. -/
theorem C5_counterexample :
    train_model cCfg0 cStoreEmpty (fun _ => cModelEos) cTok cEpochBatches []
        cGradStep 0 0 = .error .UndefinedNameError := rfl

/-- C6: a configured preload label whose checkpoint is absent from the store
makes `initTraining` fail with `CheckpointNotFoundError` (the spec's name for
the `FileNotFoundError` that `torch.load` raises and train.py does not
catch); in particular the run never silently falls back to the fresh
epoch-0/step-0 state. -/
theorem C6_missing_checkpoint_fatal {P O : Type}
    (store : String → Option (Checkpoint P O)) (cfg : Config)
    (freshP : P) (freshO : O) (label : String)
    (hpre : cfg.preload = some label)
    (habs : store (get_weights_file_path cfg label) = none) :
    initTraining store cfg freshP freshO = .error .CheckpointNotFoundError ∧
    ∀ st, initTraining store cfg freshP freshO ≠ .ok st := by
  have h : initTraining store cfg freshP freshO =
      .error .CheckpointNotFoundError := by
    simp [initTraining, hpre, habs]
  exact ⟨h, fun st hst => by rw [h] at hst; exact Except.noConfusion hst⟩

/-- C6 witness: preload label "05" absent from an empty store. -/
theorem C6_witness :
    initTraining cStoreEmpty cCfgPre 0 0 = .error .CheckpointNotFoundError ∧
    ∀ st, initTraining cStoreEmpty cCfgPre (0 : Nat) (0 : Nat) ≠ .ok st :=
  C6_missing_checkpoint_fatal cStoreEmpty cCfgPre 0 0 "05" rfl rfl

/-- C7 (amended): for a positive cap and size-1 batches, `run_validation`
decodes each of the first `min(cap, number of examples)` validation examples
with the greedy decoder, converts the ids to text, and records the (source,
expected, predicted) triples in order; it stops at the cap.  (With cap 0 the
break condition `count == num_examples` never fires and every example is
processed; see the counterexample.) -/
theorem C7_validation_processes_min {ε ρ : Type} [Inhabited ρ]
    (model : Model ε ρ) (valDs : List ValBatch) (tokTgt : TokenizerM)
    (maxLen numExamples : Nat) (hcap : 1 ≤ numExamples) (hmax : 1 ≤ maxLen)
    (hsizes : ∀ b ∈ valDs, b.encoder_input.length = 1) :
    run_validation model valDs tokTgt maxLen numExamples =
      .ok ((valDs.take numExamples).map (valTriple model tokTgt maxLen)) ∧
    ((valDs.take numExamples).map (valTriple model tokTgt maxLen)).length =
      min numExamples valDs.length := by
  constructor
  · have h := runValidationLoop_ok model tokTgt maxLen numExamples hmax valDs 0
      (by omega) hsizes
    simpa [run_validation] using h
  · simp

/-- C7 witness: cap 1 over two examples processes exactly one. -/
theorem C7_witness :
    run_validation cModelEos [cBatch1, cBatch1] cTok 4 1 =
      .ok ((([cBatch1, cBatch1] : List ValBatch).take 1).map
        (valTriple cModelEos cTok 4)) ∧
    ((([cBatch1, cBatch1] : List ValBatch).take 1).map
      (valTriple cModelEos cTok 4)).length =
      min 1 ([cBatch1, cBatch1] : List ValBatch).length :=
  C7_validation_processes_min cModelEos [cBatch1, cBatch1] cTok 4 1
    (by decide) (by decide) (by decide)

/-- C7 counterexample: with cap 0 the source's break condition
`count == num_examples` is never met, so one example is processed instead of
`min(0, 1) = 0`. -/
theorem C7_counterexample :
    run_validation cModelEos [cBatch1] cTok 4 0 = .ok [("src", "tgt", "")] ∧
    (1 : Nat) ≠ min 0 1 := by
  refine ⟨rfl, by decide⟩

/-- C8: the encoder output is computed once before the decode loop and
reused (train.py line 79); the result equals that of a reference decoder
that re-runs `encode(source, source_mask)` at every decode step. -/
theorem C8_encode_once_eq_reencode {ε ρ : Type} [Inhabited ρ]
    (model : Model ε ρ) (source : List Nat) (sourceMask : List Bool)
    (tokTgt : TokenizerM) (maxLen fuel : Nat) :
    greedy_decode model source sourceMask tokTgt maxLen fuel =
      greedy_decode_reenc model source sourceMask tokTgt maxLen fuel := by
  simp [greedy_decode, greedy_decode_reenc, greedyLoopReenc_eq]

/-- C9: the greedy decoder is deterministic — any two terminating invocations
on the same model and input (whatever fuel each is given) return the same
sequence — and every generated token (positions 1 and onward) is the id of
the first maximal logit of that step's projection, whose logit is greater
than or equal to every logit of that step. -/
theorem C9_deterministic_argmax {ε ρ : Type} [Inhabited ρ] (model : Model ε ρ)
    (source : List Nat) (sourceMask : List Bool) (tokTgt : TokenizerM)
    (maxLen fuel₁ fuel₂ : Nat) (out₁ out₂ : List Nat)
    (h₁ : greedy_decode model source sourceMask tokTgt maxLen fuel₁ = some out₁)
    (h₂ : greedy_decode model source sourceMask tokTgt maxLen fuel₂ = some out₂) :
    out₁ = out₂ ∧
    ∀ i, 1 ≤ i → i < out₁.length →
      out₁[i]? =
        some (argmaxIdx (stepProb model source sourceMask (out₁.take i))) ∧
      ∀ c, c < (stepProb model source sourceMask (out₁.take i)).length →
        (stepProb model source sourceMask (out₁.take i)).getD c 0 ≤
          (stepProb model source sourceMask (out₁.take i)).getD
            (argmaxIdx (stepProb model source sourceMask (out₁.take i))) 0 := by
  simp only [greedy_decode] at h₁ h₂
  refine ⟨greedyLoop_agree _ _ _ _ _ _ _ _ h₁ h₂, fun i hi hlen => ?_⟩
  have htok := greedyLoop_tokens _ _ _ _ _ _ h₁ i (by simpa using hi) hlen
  refine ⟨?_, fun c hc => getD_le_getD_argmaxIdx _ c hc⟩
  rw [htok.1]
  rfl

/-- C9 witness: two invocations with different fuel agree on
`[SOS, 3, 3]` and each generated token is the arg-max. -/
theorem C9_witness :
    ([1, 3, 3] : List Nat) = [1, 3, 3] ∧
    ∀ i, 1 ≤ i → i < ([1, 3, 3] : List Nat).length →
      ([1, 3, 3] : List Nat)[i]? =
        some (argmaxIdx (stepProb cModelPad [0] [true]
          (([1, 3, 3] : List Nat).take i))) ∧
      ∀ c, c < (stepProb cModelPad [0] [true]
          (([1, 3, 3] : List Nat).take i)).length →
        (stepProb cModelPad [0] [true] (([1, 3, 3] : List Nat).take i)).getD c 0 ≤
          (stepProb cModelPad [0] [true] (([1, 3, 3] : List Nat).take i)).getD
            (argmaxIdx (stepProb cModelPad [0] [true]
              (([1, 3, 3] : List Nat).take i))) 0 :=
  C9_deterministic_argmax cModelPad [0] [true] cTok 3 3 4 [1, 3, 3] [1, 3, 3]
    (by decide) (by decide)

/-- C10: every successful `greedy_decode` output begins with the SOS id
(the initialization of line 82 is never removed), and the EOS id appears at
no non-final position — the loop stops immediately after appending EOS — so
EOS occurs at most once, only as the last element.  SOS and EOS are distinct
vocabulary entries, hence the distinctness hypothesis. -/
theorem C10_sos_first_eos_last {ε ρ : Type} [Inhabited ρ] (model : Model ε ρ)
    (source : List Nat) (sourceMask : List Bool) (tokTgt : TokenizerM)
    (maxLen fuel : Nat) (out : List Nat)
    (h : greedy_decode model source sourceMask tokTgt maxLen fuel = some out)
    (hne : (tokTgt.token_to_id "[SOS]").getD 0 ≠
      (tokTgt.token_to_id "[EOS]").getD 0) :
    out.head? = some ((tokTgt.token_to_id "[SOS]").getD 0) ∧
    ∀ i, i + 1 < out.length →
      out[i]? ≠ some ((tokTgt.token_to_id "[EOS]").getD 0) := by
  simp only [greedy_decode] at h
  obtain ⟨t, ht⟩ := greedyLoop_extends _ _ _ _ _ _ h
  constructor
  · rw [ht]; rfl
  · intro i hi heq
    match i with
    | 0 =>
      rw [ht] at heq
      simp only [List.cons_append, List.nil_append, List.getElem?_cons_zero,
        Option.some.injEq] at heq
      exact hne heq
    | j + 1 =>
      have htok := greedyLoop_tokens _ _ _ _ _ _ h (j + 1) (by simp) (by omega)
      have h2 := htok.2 hi
      rw [htok.1] at heq
      exact h2 (Option.some.inj heq)

/-- C10 witness: the output `[1, 3, 3]` starts with SOS id 1 and holds no
EOS before its final position. -/
theorem C10_witness :
    ([1, 3, 3] : List Nat).head? = some ((cTok.token_to_id "[SOS]").getD 0) ∧
    ∀ i, i + 1 < ([1, 3, 3] : List Nat).length →
      ([1, 3, 3] : List Nat)[i]? ≠ some ((cTok.token_to_id "[EOS]").getD 0) :=
  C10_sos_first_eos_last cModelPad [0] [true] cTok 3 5 [1, 3, 3]
    (by decide) (by decide)
